import Mathlib

/-!
Verification of `biostar3/forum/post_views.py` (request handlers for the
forum's post-browsing features) against its natural-language specification.

The Django view functions are shallowly embedded as pure Lean functions:
the ORM tables become lists of rows inside an explicit `DB` state, query-set
filters become `List.filter`, the `OrderedDict` comment bucketing becomes an
association list, and each handler is a function from its inputs (request
data, the collaborating query/search/pagination functions as parameters, and
the database state) to its response together with the resulting database
state.  External collaborators that the spec excludes (query layer, search
backend, pagination, auth helpers) enter as function parameters, except
where the spec itself fixes their meaning (the glossary's definition of a
thread); those spots are marked `Modelled from the spec:`.
-/

namespace Biostar

/-- Post types used by the file (`models.Post.ANSWER`, `models.Post.COMMENT`
and the remaining types, whose exact set lives in the external `models`
module). -/
inductive PostType
  | QUESTION
  | ANSWER
  | COMMENT
  | FORUM
  | JOB
  deriving DecidableEq, Repr

/-- Vote types used by the file (`Vote.UP`, `Vote.DOWN`, `Vote.BOOKMARK`,
`Vote.ACCEPT` from the external `models` module). -/
inductive VoteType
  | UP
  | DOWN
  | BOOKMARK
  | ACCEPT
  deriving DecidableEq, Repr

/-- A row of the externally defined `Post` entity, restricted to the fields
this file reads or writes: `id`, `parent.id`, `type`, `title`, `view_count`,
`is_toplevel`, the tag names reachable through `tags__name`, the result of
`get_absolute_url()`, and the `content`/`author` fields written when a
comment is created. -/
structure Post where
  id : Nat
  parent_id : Nat
  type : PostType
  title : String
  view_count : Nat
  is_toplevel : Bool
  tags : List String
  absolute_url : String
  content : String
  author_id : Nat
  deriving DecidableEq, Repr

/-- A row of the externally defined `Vote` entity, restricted to the fields
this file reads: `post_id`, `author`, `type`. -/
structure Vote where
  post_id : Nat
  author_id : Nat
  type : VoteType
  deriving DecidableEq, Repr

/-- A row of the externally defined `PostView` entity: `ip`, `post`, `date`.
Dates are modelled as naturals (only `<` comparisons occur). -/
structure PostViewRow where
  ip : String
  post_id : Nat
  date : Nat
  deriving DecidableEq, Repr

/-- A row of the externally defined `UserGroup` entity, restricted to the
fields this file reads: an identifier and the `public` flag. -/
structure UserGroup where
  id : Nat
  public : Bool
  deriving DecidableEq, Repr

/-- The database state visible to this file: the tables it reads or writes.
`tag_rows` models the `Tag` table (names) and `user_rows` models the `User`
table by row identifiers; the handlers only ever read those two and
`group_rows`. -/
structure DB where
  posts : List Post
  votes : List Vote
  post_views : List PostViewRow
  tag_rows : List String
  user_rows : List Nat
  group_rows : List UserGroup
  deriving DecidableEq, Repr

/-- The request data this file reads: `request.user.is_authenticated()`,
the user's id, and the `q` GET parameter (Django's `GET.get('q', '')`
yields `""` when the parameter is absent, so a plain `String` suffices). -/
structure Request where
  authenticated : Bool
  user_id : Nat
  q : String
  deriving DecidableEq, Repr

/-- Helper for `splitPlus`: walks the characters, accumulating the current
piece (in reverse) and emitting a piece at every `'+'`. -/
def splitPlusAux : List Char → List Char → List String
  | [], acc => [String.mk acc.reverse]
  | c :: cs, acc =>
      if c = '+' then String.mk acc.reverse :: splitPlusAux cs []
      else splitPlusAux cs (c :: acc)

/-- Python's `name.split("+")`: the pieces of `name` between occurrences of
the character `'+'` (so `"a+b"` gives `["a", "b"]`, `""` gives `[""]`, and
`"a++b"` gives `["a", "", "b"]`, matching Python). -/
def splitPlus (s : String) : List String :=
  splitPlusAux s.toList []

/-- `tag_filter` line 54-55: `names = name.split("+")` followed by
`posts.filter(tags__name__in=names)`.  Django's `__in` lookup across the
many-to-many `tags` relation keeps a post when ANY of its tags has a name
in `names`. -/
def tagFilterPosts (posts : List Post) (name : String) : List Post :=
  let names := splitPlus name
  posts.filter (fun p => p.tags.any (fun t => names.contains t))

end Biostar

namespace Biostar

/-- One `setdefault(key, []).append(c)` step on an `OrderedDict` modelled as
an association list: append `c` to the list already stored at `key`, or add
the binding `(key, [c])` at the end when `key` is absent (new keys enter in
insertion order, as in `OrderedDict`). -/
def appendAt {α : Type} : List (Nat × List α) → Nat → α → List (Nat × List α)
  | [], key, c => [(key, [c])]
  | (k, v) :: rest, key, c =>
      if k = key then (k, v ++ [c]) :: rest
      else (k, v) :: appendAt rest key c

/-- `post_view` lines 210-212: the loop
`for comment in comment_list: post.comments.setdefault(comment.parent.id, []).append(comment)`
over an initially empty `OrderedDict`, generic in the row type. -/
def groupByParent {α : Type} (parentOf : α → Nat) (cs : List α) : List (Nat × List α) :=
  cs.foldl (fun d c => appendAt d (parentOf c) c) []

/-- Dictionary access on the association-list model: the value stored at
`key`, or `[]` when `key` is absent. -/
def lookupList {α : Type} : List (Nat × List α) → Nat → List α
  | [], _ => []
  | (k, v) :: rest, key => if k = key then v else lookupList rest key

/-- `post_view` lines 206-212: `comment_list = filter(lambda pc: pc.type == models.Post.COMMENT, thread)`
followed by the bucketing loop that builds `post.comments`. -/
def collectComments (thread : List Post) : List (Nat × List Post) :=
  groupByParent (fun pc => pc.parent_id)
    (thread.filter (fun pc => pc.type == PostType.COMMENT))

/-- Python's `set.add` on a set modelled as a duplicate-free list: insert
`x` unless already present. -/
def setAdd (s : List Nat) (x : Nat) : List Nat :=
  if s.contains x then s else s ++ [x]

/-- `post_view` line 178:
`Vote.objects.filter(post_id__in=pids, author=user).values_list("post_id", "type")`. -/
def fetchVotes (votes : List Vote) (pids : List Nat) (uid : Nat) : List Vote :=
  votes.filter (fun v => pids.contains v.post_id && v.author_id == uid)

/-- `post_view` lines 173-180: the dictionary
`store = {Vote.UP: set(), Vote.BOOKMARK: set()}` filled by
`store.setdefault(vote_type, set()).add(post_id)` over the fetched votes.
The dictionary is modelled as a total function on vote types whose absent
keys map to the empty set, which agrees with the source because
`setdefault` only ever extends the entry of the vote's own type and only
the UP and BOOKMARK entries are ever read.  `storeStep` is one iteration
of the loop: `store.setdefault(vote_type, set()).add(post_id)`. -/
def storeStep (store : VoteType → List Nat) (v : Vote) : VoteType → List Nat :=
  fun t => if t = v.type then setAdd (store t) v.post_id else store t

/-- The loop of `post_view` lines 179-180 over the fetched votes, starting
from the dictionary of line 173 (all read entries empty). -/
def buildStore (votes : List Vote) : VoteType → List Nat :=
  votes.foldl storeStep (fun _ => [])

/-- A post as the templates see it after `post_view`'s `decorator` ran: the
row plus the `editable`, `has_vote` and `has_bookmark` attributes. -/
structure DecoratedPost where
  post : Post
  editable : Bool
  has_vote : Bool
  has_bookmark : Bool
  deriving DecidableEq, Repr

/-- `post_view` lines 189-194: the `decorator` closure.  `p.has_vote` is
`p.id in post.upvotes` (the UP entry of the store) and `p.has_bookmark` is
`p.id in post.bookmarks` (the BOOKMARK entry); `writeAccessCheck` is the
external `auth.thread_write_access(user=user, root=post)` closure applied
to the requesting user. -/
def decorator (store : VoteType → List Nat) (writeAccessCheck : Post → Bool)
    (p : Post) : DecoratedPost :=
  { post := p,
    editable := writeAccessCheck p,
    has_vote := (store VoteType.UP).contains p.id,
    has_bookmark := (store VoteType.BOOKMARK).contains p.id }

/-- `update_post_views` line 146: the queryset
`PostView.objects.filter(ip=ip, post=post, date__gt=since)`. -/
def recentViews (views : List PostViewRow) (ip : String) (pid since : Nat) :
    List PostViewRow :=
  views.filter (fun pv => pv.ip == ip && pv.post_id == pid && decide (since < pv.date))

/-- `update_post_views` line 148:
`Post.objects.filter(id=post.id).update(view_count=F('view_count') + 1)`.
The `F` expression makes the database itself compute `view_count + 1` for
every row with the given id inside one atomic UPDATE statement, so the
whole operation is a single step on the table. -/
def atomicInc (pid : Nat) (posts : List Post) : List Post :=
  posts.map (fun p =>
    if p.id == pid then { p with view_count := p.view_count + 1 } else p)

/-- Which of the three ORM operations inside the `try` of
`update_post_views` raises, and with what message; `none` everywhere is the
non-exceptional run.  Quantifying over this oracle covers every way the
`try` body can fail (e.g. a malformed or spoofed client address rejected at
insert time). -/
structure DbFailure where
  filterRaises : Option String
  createRaises : Option String
  updateRaises : Option String
  deriving DecidableEq, Repr

/-- The body of the `try` in `update_post_views` (lines 146-148): test the
recent-views queryset, and when it is empty create a `PostView` row and
atomically increment the post's view count.  Returns the database state
reached together with the exception, if one was raised; writes made before
a later operation raised stay, as in the source (no transaction). -/
def recordPageView (f : DbFailure) (db : DB) (ip : String) (pid now since : Nat) :
    DB × Option String :=
  match f.filterRaises with
  | some e => (db, some e)
  | none =>
      if (recentViews db.post_views ip pid since).isEmpty then
        match f.createRaises with
        | some e => (db, some e)
        | none =>
            let db1 := { db with post_views := db.post_views ++ [⟨ip, pid, now⟩] }
            match f.updateRaises with
            | some e => (db1, some e)
            | none => ({ db1 with posts := atomicInc pid db1.posts }, none)
      else (db, none)

/-- `update_post_views` lines 138-151: the `try`/`except Exception` around
the page-view recording.  The result type `Except String (DB × List String)`
makes exception propagation to the caller explicit: a propagated exception
would be `Except.error`, a normal return is `Except.ok` with the new
database state and the list of messages passed to `logger.error`. -/
def update_post_views (f : DbFailure) (db : DB) (ip : String) (pid now since : Nat) :
    Except String (DB × List String) :=
  match recordPageView f db ip pid now since with
  | (db1, none) => Except.ok (db1, [])
  | (db1, some e) => Except.ok (db1, [e])

/-- The oracle of the non-exceptional run: no ORM operation raises. -/
def noDbFailure : DbFailure :=
  { filterRaises := none, createRaises := none, updateRaises := none }

/-- `update_post_views` on its non-exceptional path: the database state
after a successful call. -/
def updatePostViewsOk (db : DB) (ip : String) (pid now since : Nat) : DB :=
  (recordPageView noDbFailure db ip pid now since).1

/-- The external collaborators and environment values `post_view` consumes:
the query layer's `get_thread`, the `auth.thread_write_access` check (with
the requesting user already applied), `auth.remote_ip(request)`,
`auth.now()`, `auth.ago(minutes=settings.POST_VIEW_INTERVAL)`, and the
choices made by the `random`/`faker` test block (which user, which parent
among `thread + [post]`, what text, and the id the database assigns to the
created row). -/
structure Collaborators where
  get_thread : Post → List Post
  write_access : Post → Bool
  remote_ip : String
  now : Nat
  since : Nat
  comment_author : Nat
  comment_parent_index : Nat
  comment_text : String
  new_comment_id : Nat

/-- The rendered thread page: the context `post_view` hands to the
`post_detail.html` template, with the decorated root, the decorated thread,
`post.answers`, `post.comments`, `post.upvotes`, `post.bookmarks` and the
title. -/
structure ThreadPage where
  template_name : String
  root : DecoratedPost
  thread : List DecoratedPost
  answers : List DecoratedPost
  comments : List (Nat × List DecoratedPost)
  upvotes : List Nat
  bookmarks : List Nat
  html_title : String
  deriving DecidableEq, Repr

/-- `post_view` lines 170-212, the pure page computation: fetch the thread,
build the vote store (empty unless the user is authenticated), decorate the
thread and the root, and collect answers and comments.  The vote store is
built only for authenticated users (lines 175-180). -/
def postViewPage (req : Request) (post : Post) (c : Collaborators) (db : DB) :
    ThreadPage :=
  let thread := c.get_thread post
  let pids := thread.map Post.id
  let store : VoteType → List Nat :=
    if req.authenticated then buildStore (fetchVotes db.votes pids req.user_id)
    else fun _ => []
  let decoratedThread := thread.map (decorator store c.write_access)
  let decoratedRoot := decorator store c.write_access post
  { template_name := "post_detail.html",
    root := decoratedRoot,
    thread := decoratedThread,
    answers := decoratedThread.filter (fun dp => dp.post.type == PostType.ANSWER),
    comments := groupByParent (fun dp => dp.post.parent_id)
      (decoratedThread.filter (fun dp => dp.post.type == PostType.COMMENT)),
    upvotes := store VoteType.UP,
    bookmarks := store VoteType.BOOKMARK,
    html_title := post.title }

/-- What `post_view` returns: a redirect to an absolute URL, or the
rendered thread page. -/
inductive PostViewResult
  | redirect (url : String)
  | page (pg : ThreadPage)
  deriving DecidableEq, Repr

/-- `post_view` lines 155-228: redirect non-toplevel posts to their
absolute URL; otherwise record the view, build the thread page, and (for
authenticated users, lines 214-222) create one COMMENT post row chosen by
the `random`/`faker` test block before rendering. -/
def post_view (req : Request) (post : Post) (c : Collaborators) (db : DB) :
    PostViewResult × DB :=
  if post.is_toplevel = false then
    (PostViewResult.redirect post.absolute_url, db)
  else
    let db1 := updatePostViewsOk db c.remote_ip post.id c.now c.since
    let pg := postViewPage req post c db1
    let db2 :=
      if req.authenticated then
        let thread := c.get_thread post
        let parent := (thread ++ [post]).getD c.comment_parent_index post
        let newComment : Post :=
          { id := c.new_comment_id, parent_id := parent.id,
            type := PostType.COMMENT, title := "", view_count := 0,
            is_toplevel := false, tags := [], absolute_url := "",
            content := c.comment_text, author_id := c.comment_author }
        { db1 with posts := db1.posts ++ [newComment] }
      else db1
    (PostViewResult.page pg, db2)

/-- A rendered list page or a redirect, as returned by the list handlers. -/
inductive Response
  | redirect (url : String)
  | rendered (template_name : String) (items : List Post)
  deriving DecidableEq, Repr

/-- The collaborator calls `search_results` performs, recorded so that "no
search and no pagination happens on the redirect path" is visible in the
model. -/
inductive SearchOp
  | searched (q : String)
  | paginated
  deriving DecidableEq, Repr

/-- `search_results` lines 115-135: redirect to the home route when the
`q` GET parameter is empty (Python's `if not q` on a string), otherwise run
`search.plain(q)`, paginate, and render the results page.  The search
backend and the paginator are the external collaborators `searchPlain` and
`paginate`. -/
def search_results (req : Request) (searchPlain : String → List Post)
    (paginate : List Post → List Post) (db : DB) :
    (Response × List SearchOp) × DB :=
  if req.q = "" then ((Response.redirect "home", []), db)
  else
    let posts := searchPlain req.q
    let pagePosts := paginate posts
    ((Response.rendered "post_search_results.html" pagePosts,
      [SearchOp.searched req.q, SearchOp.paginated]), db)

/-- `post_list` lines 91-106: fall back to the toplevel-post queryset when
no prefiltered posts were passed in, paginate, and render; only reads. -/
def post_list (getToplevel : DB → List Post) (paginate : List Post → List Post)
    (posts : Option (List Post)) (db : DB) : Response × DB :=
  let ps :=
    match posts with
    | none => getToplevel db
    | some given => given
  (Response.rendered "post_list.html" (paginate ps), db)

/-- `tag_filter` lines 49-57: filter the toplevel posts by the tag names in
`name` and delegate to `post_list`. -/
def tag_filter (name : String) (getToplevel : DB → List Post)
    (paginate : List Post → List Post) (db : DB) : Response × DB :=
  post_list getToplevel paginate (some (tagFilterPosts (getToplevel db) name)) db

/-- `posts_by_user` lines 60-67: the posts created by a user, via the
external `query.get_all_posts`, delegated to `post_list`. -/
def posts_by_user (getAllPosts : DB → List Post) (getToplevel : DB → List Post)
    (paginate : List Post → List Post) (db : DB) : Response × DB :=
  post_list getToplevel paginate (some (getAllPosts db)) db

/-- `upvoted_posts` lines 70-77: the posts upvoted or bookmarked for a
user, via the external `query.get_posts_by_vote`, delegated to
`post_list`. -/
def upvoted_posts (getPostsByVote : DB → List Post) (getToplevel : DB → List Post)
    (paginate : List Post → List Post) (db : DB) : Response × DB :=
  post_list getToplevel paginate (some (getPostsByVote db)) db

/-- `my_bookmarks` lines 80-88: the requesting user's bookmarks, via the
external `query.get_my_bookmarks`, delegated to `post_list`. -/
def my_bookmarks (getMyBookmarks : DB → List Post) (getToplevel : DB → List Post)
    (paginate : List Post → List Post) (db : DB) : Response × DB :=
  post_list getToplevel paginate (some (getMyBookmarks db)) db

/-- The context `tag_list` renders. -/
structure TagListPage where
  template_name : String
  tags : List String
  q : String
  deriving DecidableEq, Repr

/-- `tag_list` lines 28-46: filter the tag names by the `q` parameter when
one was given (`icontains` is the database's case-insensitive containment
match), order by name and paginate (both external), and render; only
reads. -/
def tag_list (req : Request) (icontains : String → String → Bool)
    (orderByName : List String → List String)
    (paginateTags : List String → List String) (db : DB) : TagListPage × DB :=
  let q := req.q
  let tags := if q = "" then db.tag_rows else db.tag_rows.filter (icontains q)
  ({ template_name := "tag_list.html", tags := paginateTags (orderByName tags),
     q := q }, db)

/-- `group_list` lines 108-113: the public user groups; only reads. -/
def group_list (db : DB) : List UserGroup × DB :=
  (db.group_rows.filter (fun g => g.public), db)

/-- A concrete toplevel post carrying only the tag `"a"`, used to exhibit
the behaviour of `tag_filter` on a two-tag request. -/
def onlyTagA : Post :=
  { id := 1, parent_id := 1, type := PostType.QUESTION, title := "t",
    view_count := 0, is_toplevel := true, tags := ["a"],
    absolute_url := "/p/1/", content := "", author_id := 7 }

/-- Concrete collaborators for evaluating the handlers: the thread of a
post is just the post itself, every post is editable, and the test block's
random choices are fixed. -/
def sampleCollab : Collaborators :=
  { get_thread := fun p => [p], write_access := fun _ => true,
    remote_ip := "1.2.3.4", now := 100, since := 40,
    comment_author := 3, comment_parent_index := 0, comment_text := "x",
    new_comment_id := 99 }

/-- A concrete UP vote by user 7 on post 1. -/
def sampleVote : Vote :=
  { post_id := 1, author_id := 7, type := VoteType.UP }

/-- A concrete database: one post, one UP vote, no recorded views. -/
def sampleDB : DB :=
  { posts := [onlyTagA], votes := [sampleVote], post_views := [],
    tag_rows := ["a"], user_rows := [7], group_rows := [] }

/-- A concrete authenticated request by user 7. -/
def sampleReq : Request :=
  { authenticated := true, user_id := 7, q := "" }

/-- A concrete anonymous request. -/
def sampleReqAnon : Request :=
  { authenticated := false, user_id := 7, q := "" }

/-- `k` requests to the same post, each executing the single atomic UPDATE
statement of `update_post_views` line 148.  Because each increment is one
database statement, any interleaving of `k` concurrent requests is some
sequential order of these statements, which this iteration captures. -/
def iterateInc (pid : Nat) : Nat → List Post → List Post
  | 0, posts => posts
  | k + 1, posts => atomicInc pid (iterateInc pid k posts)

/-- Erase the `view_count` column of a row; two post tables with equal
`clearViews` images agree on every column except `view_count` (and on row
count and order). -/
def clearViews (p : Post) : Post :=
  { p with view_count := 0 }

/-- The write footprint the spec allows this file: every table except
`posts` and `post_views` untouched, at most one new `PostView` row
appended, and the post table obtained from the old one by at most one
atomic view-count increment plus appended COMMENT rows. -/
def onlyAllowedWrites (db db' : DB) : Prop :=
  db'.votes = db.votes ∧ db'.tag_rows = db.tag_rows ∧
  db'.user_rows = db.user_rows ∧ db'.group_rows = db.group_rows ∧
  (db'.post_views = db.post_views ∨ ∃ r, db'.post_views = db.post_views ++ [r]) ∧
  ∃ newComments : List Post,
    (∀ cmt ∈ newComments, cmt.type = PostType.COMMENT) ∧
    ((db'.posts = db.posts ++ newComments) ∨
      ∃ pid, db'.posts = atomicInc pid db.posts ++ newComments)

/-- A concrete non-toplevel post (a reply living in the thread of post 1). -/
def sampleReply : Post :=
  { id := 2, parent_id := 1, type := PostType.ANSWER, title := "r",
    view_count := 0, is_toplevel := false, tags := [],
    absolute_url := "/p/1/#2", content := "reply", author_id := 8 }

/-- A concrete request carrying a non-empty search query. -/
def sampleSearchReq : Request :=
  { authenticated := false, user_id := 0, q := "rna" }

/-- A concrete failure oracle: the `PostView` filter raises (the malformed
client address scenario of the source comment). -/
def failOracle : DbFailure :=
  { filterRaises := some "boom", createRaises := none, updateRaises := none }

end Biostar

namespace Biostar

/-- C1 counterexample: for the request `name = "a+b"`, the post `onlyTagA`,
which carries the tag `"a"` but not the tag `"b"`, is nevertheless a member
of the filtered post list, so the resulting list does not contain only posts
carrying both tags. -/
theorem tag_filter_two_tags_not_conjunctive :
    onlyTagA ∈ tagFilterPosts [onlyTagA] "a+b" ∧ "b" ∉ onlyTagA.tags := by
  decide

/-- C1 (amended): for every request to `tag_filter` with a `name` parameter,
a post is in the resulting post list exactly when it is in the incoming
queryset and carries at least one of the names obtained by splitting `name`
on `"+"` (so a post carrying just one of two requested names is included,
not excluded). -/
theorem tag_filter_keeps_posts_with_some_named_tag
    (posts : List Post) (name : String) (p : Post) :
    p ∈ tagFilterPosts posts name ↔
      p ∈ posts ∧ ∃ t ∈ p.tags, t ∈ splitPlus name := by
  simp only [tagFilterPosts, List.mem_filter, List.any_eq_true]
  constructor
  · rintro ⟨hp, t, ht, hc⟩
    exact ⟨hp, t, ht, List.elem_iff.mp hc⟩
  · rintro ⟨hp, t, ht, hc⟩
    exact ⟨hp, t, ht, List.elem_iff.mpr hc⟩

end Biostar

namespace Biostar

/-- One `setdefault`/`append` step changes only the bucket of its key:
looking up `q` after appending `c` at `key` gives the old bucket with `c`
appended when `q = key`, and the old bucket unchanged otherwise. -/
theorem lookupList_appendAt {α : Type} (d : List (Nat × List α)) (key q : Nat) (c : α) :
    lookupList (appendAt d key c) q =
      if q = key then lookupList d q ++ [c] else lookupList d q := by
  induction d with
  | nil =>
      simp only [appendAt, lookupList]
      by_cases h : key = q
      · subst h; simp
      · have h' : ¬ q = key := fun hq => h hq.symm
        simp [h, h']
  | cons e rest ih =>
      obtain ⟨k, v⟩ := e
      simp only [appendAt]
      by_cases hk : k = key
      · subst hk
        by_cases hq : q = k
        · subst hq; simp [lookupList]
        · have hq' : ¬ k = q := fun h => hq h.symm
          simp [lookupList, hq, hq']
      · by_cases hq : k = q
        · subst hq
          simp [lookupList, hk]
        · simp [lookupList, hk, hq, ih]

/-- The bucketing loop, run from an arbitrary dictionary: the bucket of `q`
afterwards is the old bucket followed by the rows whose parent is `q`, in
their original order. -/
theorem lookupList_groupFold {α : Type} (parentOf : α → Nat) (cs : List α) :
    ∀ (d : List (Nat × List α)) (q : Nat),
      lookupList (cs.foldl (fun d c => appendAt d (parentOf c) c) d) q =
        lookupList d q ++ cs.filter (fun c => parentOf c == q) := by
  induction cs with
  | nil => intro d q; simp
  | cons c cs ih =>
      intro d q
      simp only [List.foldl_cons, List.filter_cons]
      rw [ih, lookupList_appendAt]
      by_cases h : q = parentOf c
      · have hb : (parentOf c == q) = true := by simp [h]
        simp [h, hb, List.append_assoc]
      · have hb : (parentOf c == q) = false := by
          simp [beq_eq_false_iff_ne]
          exact fun hc => h hc.symm
        simp [h, hb]

/-- The bucket of `q` in `groupByParent` is exactly the rows whose parent is
`q`, in their original order. -/
theorem lookupList_groupByParent {α : Type} (parentOf : α → Nat) (cs : List α) (q : Nat) :
    lookupList (groupByParent parentOf cs) q = cs.filter (fun c => parentOf c == q) := by
  rw [groupByParent, lookupList_groupFold]
  simp [lookupList]

end Biostar

namespace Biostar

/-- C2: in `post_view`, the `post.comments` dictionary built from the thread
satisfies: (1) the bucket of every key `key` is exactly the sequence of
COMMENT posts of the thread whose parent id is `key`, in the thread's
order (so relative order is preserved); (2) every COMMENT post of the
thread appears in the bucket of its parent's id; (3) everything found in a
bucket is a COMMENT post of the thread filed under its parent's id, so no
non-comment post appears in `post.comments`. -/
theorem post_view_comment_grouping (thread : List Post) (key : Nat) :
    (lookupList (collectComments thread) key =
        thread.filter (fun p => p.type == PostType.COMMENT && p.parent_id == key)) ∧
    (∀ c ∈ thread, c.type = PostType.COMMENT →
        c ∈ lookupList (collectComments thread) c.parent_id) ∧
    (∀ c, c ∈ lookupList (collectComments thread) key →
        c.type = PostType.COMMENT ∧ c.parent_id = key ∧ c ∈ thread) := by
  have hchar : ∀ q, lookupList (collectComments thread) q =
      thread.filter (fun p => p.type == PostType.COMMENT && p.parent_id == q) := by
    intro q
    rw [collectComments, lookupList_groupByParent, List.filter_filter]
    have hfun : (fun p : Post => (p.parent_id == q) && (p.type == PostType.COMMENT)) =
        (fun p : Post => (p.type == PostType.COMMENT) && (p.parent_id == q)) := by
      funext p
      exact Bool.and_comm _ _
    rw [hfun]
  refine ⟨hchar key, ?_, ?_⟩
  · intro c hc htype
    rw [hchar]
    simp [List.mem_filter, hc, htype]
  · intro c hc
    rw [hchar key] at hc
    simp only [List.mem_filter, Bool.and_eq_true, beq_iff_eq] at hc
    exact ⟨hc.2.1, hc.2.2, hc.1⟩

/-- Concrete check of `post_view_comment_grouping`: a three-post thread with
two comments under parent 5 and one answer; the bucket of key 5 holds
exactly the two comments in thread order, and all three statements of the
theorem evaluate as stated. -/
theorem post_view_comment_grouping_check :
    lookupList
        (collectComments
          [{ onlyTagA with id := 10, parent_id := 5, type := PostType.COMMENT },
           { onlyTagA with id := 11, parent_id := 5, type := PostType.ANSWER },
           { onlyTagA with id := 12, parent_id := 5, type := PostType.COMMENT }]) 5 =
      [{ onlyTagA with id := 10, parent_id := 5, type := PostType.COMMENT },
       { onlyTagA with id := 12, parent_id := 5, type := PostType.COMMENT }] :=
  (post_view_comment_grouping
      [{ onlyTagA with id := 10, parent_id := 5, type := PostType.COMMENT },
       { onlyTagA with id := 11, parent_id := 5, type := PostType.ANSWER },
       { onlyTagA with id := 12, parent_id := 5, type := PostType.COMMENT }] 5).1.trans
    (by decide)

end Biostar

namespace Biostar

/-- Python's `set.add`: after adding `x`, a value is in the set exactly when
it is `x` or was already there. -/
theorem mem_setAdd (s : List Nat) (x y : Nat) :
    y ∈ setAdd s x ↔ y = x ∨ y ∈ s := by
  unfold setAdd
  by_cases h : s.contains x = true
  · rw [if_pos h]
    have hx : x ∈ s := List.elem_iff.mp h
    constructor
    · exact fun hy => Or.inr hy
    · rintro (rfl | hy)
      · exact hx
      · exact hy
  · rw [if_neg h, List.mem_append, List.mem_singleton]
    tauto

/-- One loop iteration of the store construction: `storeStep` adds the
vote's post id to the entry of the vote's own type and leaves every other
entry alone. -/
theorem mem_storeStep (store : VoteType → List Nat) (v : Vote) (t : VoteType) (x : Nat) :
    x ∈ storeStep store v t ↔ x ∈ store t ∨ (t = v.type ∧ x = v.post_id) := by
  unfold storeStep
  by_cases ht : t = v.type
  · simp only [ht, if_true, mem_setAdd]
    tauto
  · simp [ht]

/-- The vote loop, run from an arbitrary store: afterwards a post id is in
the entry for `t` exactly when it was there already or some vote of the
list has type `t` and that post id. -/
theorem mem_foldl_storeStep (vs : List Vote) :
    ∀ (s : VoteType → List Nat) (t : VoteType) (x : Nat),
      x ∈ (vs.foldl storeStep s) t ↔
        x ∈ s t ∨ ∃ v ∈ vs, v.type = t ∧ v.post_id = x := by
  induction vs with
  | nil => intro s t x; simp
  | cons v vs ih =>
      intro s t x
      simp only [List.foldl_cons]
      rw [ih, mem_storeStep]
      constructor
      · rintro ((h | ⟨ht, hx⟩) | ⟨w, hw, hwt, hwx⟩)
        · exact Or.inl h
        · exact Or.inr ⟨v, List.mem_cons_self v vs, ht.symm, hx.symm⟩
        · exact Or.inr ⟨w, List.mem_cons_of_mem v hw, hwt, hwx⟩
      · rintro (h | ⟨w, hw, hwt, hwx⟩)
        · exact Or.inl (Or.inl h)
        · rcases List.mem_cons.mp hw with rfl | hw'
          · exact Or.inl (Or.inr ⟨hwt.symm, hwx.symm⟩)
          · exact Or.inr ⟨w, hw', hwt, hwx⟩

/-- The store built from a vote list holds, under type `t`, exactly the
post ids of the votes of type `t`. -/
theorem mem_buildStore (votes : List Vote) (t : VoteType) (x : Nat) :
    x ∈ buildStore votes t ↔ ∃ v ∈ votes, v.type = t ∧ v.post_id = x := by
  rw [buildStore, mem_foldl_storeStep]
  simp

/-- `Vote.objects.filter(post_id__in=pids, author=user)` keeps exactly the
votes of the table whose post id is in `pids` and whose author is the
user. -/
theorem mem_fetchVotes (votes : List Vote) (pids : List Nat) (uid : Nat) (v : Vote) :
    v ∈ fetchVotes votes pids uid ↔
      v ∈ votes ∧ v.post_id ∈ pids ∧ v.author_id = uid := by
  simp only [fetchVotes, List.mem_filter, Bool.and_eq_true, beq_iff_eq]
  constructor
  · rintro ⟨hv, hc, ha⟩
    exact ⟨hv, List.elem_iff.mp hc, ha⟩
  · rintro ⟨hv, hc, ha⟩
    exact ⟨hv, List.elem_iff.mpr hc, ha⟩

/-- For a post id inside the consulted id list, membership in the built
store coincides with the existence of a matching vote in the full vote
table: the `post_id__in=pids` restriction drops no vote on that post. -/
theorem store_mem_iff (votes : List Vote) (pids : List Nat) (uid x : Nat)
    (t : VoteType) (hx : x ∈ pids) :
    x ∈ buildStore (fetchVotes votes pids uid) t ↔
      ∃ v ∈ votes, v.post_id = x ∧ v.author_id = uid ∧ v.type = t := by
  rw [mem_buildStore]
  constructor
  · rintro ⟨v, hv, hvt, hvx⟩
    rw [mem_fetchVotes] at hv
    exact ⟨v, hv.1, hvx, hv.2.2, hvt⟩
  · rintro ⟨v, hv, hvx, hva, hvt⟩
    refine ⟨v, ?_, hvt, hvx⟩
    rw [mem_fetchVotes]
    refine ⟨hv, ?_, hva⟩
    rw [hvx]
    exact hx

/-- C3: in `post_view`, for an authenticated requesting user, every post of
the rendered thread — the decorated root included — has `has_vote` exactly
when the user has an UP vote on it in the vote table, and `has_bookmark`
exactly when the user has a BOOKMARK vote on it; only votes on posts of the
thread are consulted, which loses nothing because every rendered post
belongs to the thread.  The hypothesis `post ∈ c.get_thread post` is the
glossary's definition of a thread (a root post and all its descendants),
the query layer being outside `src/`. -/
theorem post_view_vote_decoration
    (req : Request) (post : Post) (c : Collaborators) (db : DB) (dp : DecoratedPost)
    (hauth : req.authenticated = true)
    (hroot : post ∈ c.get_thread post)
    (hdp : dp ∈ (postViewPage req post c db).root :: (postViewPage req post c db).thread) :
    (dp.has_vote = true ↔
      ∃ v ∈ db.votes, v.post_id = dp.post.id ∧ v.author_id = req.user_id ∧
        v.type = VoteType.UP) ∧
    (dp.has_bookmark = true ↔
      ∃ v ∈ db.votes, v.post_id = dp.post.id ∧ v.author_id = req.user_id ∧
        v.type = VoteType.BOOKMARK) := by
  simp only [postViewPage, hauth, if_true] at hdp
  have hex : ∃ p, p ∈ c.get_thread post ∧
      dp = decorator
        (buildStore (fetchVotes db.votes ((c.get_thread post).map Post.id) req.user_id))
        c.write_access p := by
    rcases List.mem_cons.mp hdp with heq | hmem
    · exact ⟨post, hroot, heq⟩
    · obtain ⟨p, hp, hpe⟩ := List.mem_map.mp hmem
      exact ⟨p, hp, hpe.symm⟩
  obtain ⟨p, hp, rfl⟩ := hex
  have hpid : p.id ∈ (c.get_thread post).map Post.id :=
    List.mem_map_of_mem Post.id hp
  constructor
  · simp only [decorator]
    rw [List.elem_iff]
    exact store_mem_iff db.votes _ req.user_id p.id VoteType.UP hpid
  · simp only [decorator]
    rw [List.elem_iff]
    exact store_mem_iff db.votes _ req.user_id p.id VoteType.BOOKMARK hpid

/-- Concrete instance of `post_view_vote_decoration`: user 7 requests the
thread of post 1 carrying their own UP vote; the decorated root's
`has_vote` coincides with the existence of that vote and `has_bookmark`
with the (absent) bookmark. -/
theorem post_view_vote_decoration_witness :
    ((postViewPage sampleReq onlyTagA sampleCollab sampleDB).root.has_vote = true ↔
      ∃ v ∈ sampleDB.votes,
        v.post_id = (postViewPage sampleReq onlyTagA sampleCollab sampleDB).root.post.id ∧
        v.author_id = sampleReq.user_id ∧ v.type = VoteType.UP) ∧
    ((postViewPage sampleReq onlyTagA sampleCollab sampleDB).root.has_bookmark = true ↔
      ∃ v ∈ sampleDB.votes,
        v.post_id = (postViewPage sampleReq onlyTagA sampleCollab sampleDB).root.post.id ∧
        v.author_id = sampleReq.user_id ∧ v.type = VoteType.BOOKMARK) :=
  post_view_vote_decoration sampleReq onlyTagA sampleCollab sampleDB _
    rfl (by decide) (List.mem_cons_self _ _)

/-- C10: in `post_view`, when the requesting user is not authenticated the
vote store stays empty: `post.upvotes` and `post.bookmarks` are the empty
set, and every rendered post — the decorated root included — has
`has_vote = false` and `has_bookmark = false`. -/
theorem post_view_anonymous_empty_votes
    (req : Request) (post : Post) (c : Collaborators) (db : DB)
    (hanon : req.authenticated = false) :
    (postViewPage req post c db).upvotes = [] ∧
    (postViewPage req post c db).bookmarks = [] ∧
    ∀ dp ∈ (postViewPage req post c db).root :: (postViewPage req post c db).thread,
      dp.has_vote = false ∧ dp.has_bookmark = false := by
  simp only [postViewPage, hanon, Bool.false_eq_true, if_false]
  refine ⟨by trivial, by trivial, ?_⟩
  intro dp hdp
  rcases List.mem_cons.mp hdp with rfl | hmem
  · simp [decorator]
  · obtain ⟨p, hp, hpe⟩ := List.mem_map.mp hmem
    simp [← hpe, decorator]

/-- Concrete instance of `post_view_anonymous_empty_votes`: an anonymous
request over a database that does contain an UP vote still renders empty
vote sets and all-false decorations. -/
theorem post_view_anonymous_empty_votes_witness :
    (postViewPage sampleReqAnon onlyTagA sampleCollab sampleDB).upvotes = [] ∧
    (postViewPage sampleReqAnon onlyTagA sampleCollab sampleDB).bookmarks = [] ∧
    ∀ dp ∈ (postViewPage sampleReqAnon onlyTagA sampleCollab sampleDB).root ::
        (postViewPage sampleReqAnon onlyTagA sampleCollab sampleDB).thread,
      dp.has_vote = false ∧ dp.has_bookmark = false :=
  post_view_anonymous_empty_votes sampleReqAnon onlyTagA sampleCollab sampleDB rfl

end Biostar

namespace Biostar

/-- C4: `update_post_views` never propagates an exception to its caller.
For every request/post and every way the ORM operations inside the `try`
can raise (the `DbFailure` oracle ranges over all of them, including a
malformed or spoofed client address rejected when the `PostView` row is
touched), the call returns normally — `Except.ok` — and when an exception
was raised its message is exactly what was handed to `logger.error`, so the
calling handler always proceeds. -/
theorem update_post_views_never_raises
    (f : DbFailure) (db : DB) (ip : String) (pid now since : Nat) :
    (update_post_views f db ip pid now since).isOk = true ∧
    (∀ e, (recordPageView f db ip pid now since).2 = some e →
      update_post_views f db ip pid now since =
        Except.ok ((recordPageView f db ip pid now since).1, [e])) := by
  unfold update_post_views
  rcases hrec : recordPageView f db ip pid now since with ⟨db1, exc⟩
  cases exc with
  | none =>
      refine ⟨rfl, ?_⟩
      intro e he
      simp at he
  | some e0 =>
      refine ⟨rfl, ?_⟩
      intro e he
      simp at he
      subst he
      rfl

/-- Concrete instance of `update_post_views_never_raises`: when the
`PostView` filter raises `"boom"`, the call still returns `Except.ok` and
logs exactly `"boom"`. -/
theorem update_post_views_never_raises_witness :
    (update_post_views failOracle sampleDB "bad" 1 100 40).isOk = true ∧
    update_post_views failOracle sampleDB "bad" 1 100 40 =
      Except.ok ((recordPageView failOracle sampleDB "bad" 1 100 40).1, ["boom"]) :=
  ⟨(update_post_views_never_raises failOracle sampleDB "bad" 1 100 40).1,
   (update_post_views_never_raises failOracle sampleDB "bad" 1 100 40).2 "boom"
     (by decide)⟩

end Biostar

namespace Biostar

/-- The truthiness test of line 146: the recent-views queryset is empty
exactly when no `PostView` row for this ip and post is newer than
`since`. -/
theorem recentViews_empty_iff (views : List PostViewRow) (ip : String) (pid since : Nat) :
    (recentViews views ip pid since).isEmpty = true ↔
      ∀ pv ∈ views, ¬(pv.ip = ip ∧ pv.post_id = pid ∧ since < pv.date) := by
  rw [List.isEmpty_iff, List.eq_nil_iff_forall_not_mem]
  constructor
  · intro h pv hpv hc
    exact h pv (by
      simp only [recentViews, List.mem_filter, Bool.and_eq_true, beq_iff_eq,
        decide_eq_true_eq]
      exact ⟨hpv, ⟨hc.1, hc.2.1⟩, hc.2.2⟩)
  · intro h pv hpv
    simp only [recentViews, List.mem_filter, Bool.and_eq_true, beq_iff_eq,
      decide_eq_true_eq] at hpv
    exact h pv hpv.1 ⟨hpv.2.1.1, hpv.2.1.2, hpv.2.2⟩

/-- Successful `update_post_views` when no recent view exists: exactly one
`PostView` row is appended and the atomic increment is applied to the post
table. -/
theorem updatePostViewsOk_created (db : DB) (ip : String) (pid now since : Nat)
    (h : (recentViews db.post_views ip pid since).isEmpty = true) :
    updatePostViewsOk db ip pid now since =
      { db with post_views := db.post_views ++ [⟨ip, pid, now⟩],
                posts := atomicInc pid db.posts } := by
  simp [updatePostViewsOk, recordPageView, noDbFailure, h]

/-- Successful `update_post_views` when a recent view exists: the database
is returned unchanged — no row is created and no increment happens. -/
theorem updatePostViewsOk_not_created (db : DB) (ip : String) (pid now since : Nat)
    (h : (recentViews db.post_views ip pid since).isEmpty = false) :
    updatePostViewsOk db ip pid now since = db := by
  simp [updatePostViewsOk, recordPageView, noDbFailure, h]

/-- The atomic increment really increments: the row found for the post id
afterwards is the row found before with `view_count` one higher and every
other column equal. -/
theorem find_atomicInc (pid : Nat) (posts : List Post) (p : Post)
    (h : posts.find? (fun q => q.id == pid) = some p) :
    (atomicInc pid posts).find? (fun q => q.id == pid) =
      some { p with view_count := p.view_count + 1 } := by
  induction posts with
  | nil => simp at h
  | cons a as ih =>
      cases hb : (a.id == pid) with
      | true =>
          have hap : a = p := by
            have h2 : some a = some p := by
              rw [← h]
              simp [List.find?, hb]
            exact Option.some.inj h2
          subst hap
          simp [atomicInc, List.find?, hb]
      | false =>
          have h2 : as.find? (fun q => q.id == pid) = some p := by
            rw [← h]
            simp [List.find?, hb]
          have h3 := ih h2
          simp only [atomicInc, List.map_cons] at h3 ⊢
          simp only [hb, Bool.false_eq_true, if_false, List.find?]
          exact h3

end Biostar

namespace Biostar

/-- C9: in every successful call to `update_post_views`, the view-count
increment happens exactly when a new `PostView` row is created in that same
call (both happen when the recent-views queryset is empty, neither when it
is not); in particular nothing changes when a `PostView` row for the same
ip and post newer than `since` already exists, and once a call created a
row at time `now`, any further call whose window still covers `now` is a
no-op — at most one increment per ip, post and interval.  `find_atomicInc`
(shared lemma) interprets `atomicInc` as the actual `view_count + 1` on the
post's row. -/
theorem update_post_views_once_per_interval
    (db : DB) (ip : String) (pid now since : Nat) :
    ((recentViews db.post_views ip pid since).isEmpty = true →
      (updatePostViewsOk db ip pid now since).post_views =
          db.post_views ++ [⟨ip, pid, now⟩] ∧
      (updatePostViewsOk db ip pid now since).posts = atomicInc pid db.posts) ∧
    ((recentViews db.post_views ip pid since).isEmpty = false →
      updatePostViewsOk db ip pid now since = db) ∧
    ((∃ pv ∈ db.post_views, pv.ip = ip ∧ pv.post_id = pid ∧ since < pv.date) →
      updatePostViewsOk db ip pid now since = db) ∧
    ((recentViews db.post_views ip pid since).isEmpty = true →
      ∀ now2 since2, since2 < now →
        updatePostViewsOk (updatePostViewsOk db ip pid now since) ip pid now2 since2 =
          updatePostViewsOk db ip pid now since) := by
  have hseen : (∃ pv ∈ db.post_views, pv.ip = ip ∧ pv.post_id = pid ∧ since < pv.date) →
      updatePostViewsOk db ip pid now since = db := by
    intro hex
    apply updatePostViewsOk_not_created
    cases hε : (recentViews db.post_views ip pid since).isEmpty with
    | false => rfl
    | true =>
        obtain ⟨pv, hpv, hc⟩ := hex
        exact absurd hc ((recentViews_empty_iff db.post_views ip pid since).mp hε pv hpv)
  refine ⟨?_, ?_, hseen, ?_⟩
  · intro hε
    rw [updatePostViewsOk_created db ip pid now since hε]
    exact ⟨rfl, rfl⟩
  · exact updatePostViewsOk_not_created db ip pid now since
  · intro hε now2 since2 h2
    have hdb1 : updatePostViewsOk db ip pid now since =
        { db with post_views := db.post_views ++ [⟨ip, pid, now⟩],
                  posts := atomicInc pid db.posts } :=
      updatePostViewsOk_created db ip pid now since hε
    apply updatePostViewsOk_not_created
    rw [hdb1]
    cases hε2 : (recentViews (db.post_views ++ [⟨ip, pid, now⟩]) ip pid since2).isEmpty with
    | false => rfl
    | true =>
        exact absurd ⟨rfl, rfl, h2⟩
          ((recentViews_empty_iff (db.post_views ++ [⟨ip, pid, now⟩]) ip pid since2).mp hε2
            ⟨ip, pid, now⟩ (List.mem_append_right db.post_views (List.mem_singleton_self _)))

/-- Concrete instance of `update_post_views_once_per_interval`: on a
database with no recorded views, the first call creates the row and applies
the increment, and a second call inside the interval leaves everything as
after the first. -/
theorem update_post_views_once_per_interval_witness :
    ((updatePostViewsOk sampleDB "1.2.3.4" 1 100 40).post_views =
        sampleDB.post_views ++ [⟨"1.2.3.4", 1, 100⟩] ∧
      (updatePostViewsOk sampleDB "1.2.3.4" 1 100 40).posts =
        atomicInc 1 sampleDB.posts) ∧
    updatePostViewsOk (updatePostViewsOk sampleDB "1.2.3.4" 1 100 40)
        "1.2.3.4" 1 200 50 =
      updatePostViewsOk sampleDB "1.2.3.4" 1 100 40 :=
  ⟨(update_post_views_once_per_interval sampleDB "1.2.3.4" 1 100 40).1 (by decide),
   (update_post_views_once_per_interval sampleDB "1.2.3.4" 1 100 40).2.2.2 (by decide)
     200 50 (by decide)⟩

end Biostar

namespace Biostar

/-- One atomic increment, observed through the `(id, view_count)` columns:
every row keeps its id, and its count grows by one exactly when its id is
the incremented one. -/
theorem atomicInc_map_pair (pid : Nat) (l : List Post) :
    (atomicInc pid l).map (fun p => (p.id, p.view_count)) =
      l.map (fun p => (p.id, if p.id = pid then p.view_count + 1 else p.view_count)) := by
  unfold atomicInc
  rw [List.map_map]
  have hfun : ((fun p : Post => (p.id, p.view_count)) ∘
      (fun p : Post =>
        if p.id == pid then { p with view_count := p.view_count + 1 } else p)) =
      (fun p : Post => (p.id, if p.id = pid then p.view_count + 1 else p.view_count)) := by
    funext p
    by_cases hp : p.id = pid
    · simp [Function.comp, hp]
    · simp [Function.comp, hp]
  rw [hfun]

/-- `k` sequential atomic increments on the same post id: every row keeps
its id, and the count of each row with that id grows by exactly `k` — no
increment is lost in any interleaving of `k` single-statement updates. -/
theorem iterateInc_map_pair (pid k : Nat) (posts : List Post) :
    (iterateInc pid k posts).map (fun p => (p.id, p.view_count)) =
      posts.map (fun p => (p.id, if p.id = pid then p.view_count + k else p.view_count)) := by
  induction k with
  | zero => simp [iterateInc]
  | succ k ih =>
      simp only [iterateInc]
      rw [atomicInc_map_pair]
      have hcomp : (fun p : Post => (p.id, if p.id = pid then p.view_count + 1 else p.view_count)) =
          (fun q : Nat × Nat => (q.1, if q.1 = pid then q.2 + 1 else q.2)) ∘
            (fun p : Post => (p.id, p.view_count)) := by
        funext p
        simp [Function.comp]
      rw [hcomp, ← List.map_map, ih, List.map_map]
      have hstep : ((fun q : Nat × Nat => (q.1, if q.1 = pid then q.2 + 1 else q.2)) ∘
          (fun p : Post => (p.id, if p.id = pid then p.view_count + k else p.view_count))) =
          (fun p : Post => (p.id, if p.id = pid then p.view_count + (k + 1) else p.view_count)) := by
        funext p
        by_cases hp : p.id = pid
        · simp [Function.comp, hp, Nat.add_assoc]
        · simp [Function.comp, hp]
      rw [hstep]

/-- The atomic increment writes no column other than `view_count`: erasing
that column makes the table identical to the original. -/
theorem atomicInc_map_clearViews (pid : Nat) (l : List Post) :
    (atomicInc pid l).map clearViews = l.map clearViews := by
  unfold atomicInc
  rw [List.map_map]
  have hfun : (clearViews ∘
      (fun p : Post =>
        if p.id == pid then { p with view_count := p.view_count + 1 } else p)) =
      clearViews := by
    funext p
    by_cases hp : p.id = pid
    · simp [Function.comp, clearViews, hp]
    · simp [Function.comp, clearViews, hp]
  rw [hfun]

/-- Iterated atomic increments write no column other than `view_count`. -/
theorem iterateInc_map_clearViews (pid k : Nat) (posts : List Post) :
    (iterateInc pid k posts).map clearViews = posts.map clearViews := by
  induction k with
  | zero => rfl
  | succ k ih =>
      simp only [iterateInc]
      rw [atomicInc_map_clearViews, ih]

/-- A successful `update_post_views` either leaves the post table alone or
applies exactly the one atomic increment: the only in-place update the file
performs on a shared row. -/
theorem updatePostViewsOk_posts_cases (db : DB) (ip : String) (pid now since : Nat) :
    (updatePostViewsOk db ip pid now since).posts = db.posts ∨
    (updatePostViewsOk db ip pid now since).posts = atomicInc pid db.posts := by
  cases hε : (recentViews db.post_views ip pid since).isEmpty with
  | true => exact Or.inr (by rw [updatePostViewsOk_created db ip pid now since hε])
  | false => exact Or.inl (by rw [updatePostViewsOk_not_created db ip pid now since hε])

/-- C8: the view-count column is updated through the atomic in-database
expression `view_count = view_count + 1` (`atomicInc`, one UPDATE
statement), so an interleaving of `k` concurrent requests incrementing the
same post — `k` sequential atomic statements — raises each matching row's
count by exactly `k` with no lost update, changes no other column, and the
only in-place row update any handler performs is that increment
(`update_post_views` either leaves the table alone or applies it once; all
other writes are row creations, per the frame theorem). -/
theorem view_count_increment_atomic (pid k : Nat) (posts : List Post) :
    ((iterateInc pid k posts).map (fun p => (p.id, p.view_count)) =
      posts.map (fun p => (p.id, if p.id = pid then p.view_count + k else p.view_count))) ∧
    ((iterateInc pid k posts).map clearViews = posts.map clearViews) ∧
    (∀ (db : DB) (ip : String) (pid2 now since : Nat),
      (updatePostViewsOk db ip pid2 now since).posts = db.posts ∨
      (updatePostViewsOk db ip pid2 now since).posts = atomicInc pid2 db.posts) :=
  ⟨iterateInc_map_pair pid k posts, iterateInc_map_clearViews pid k posts,
   fun db ip pid2 now since => updatePostViewsOk_posts_cases db ip pid2 now since⟩

end Biostar

namespace Biostar

/-- C6: for every request to `post_view` whose post is not toplevel, the
handler returns a redirect to the post's absolute URL and the database is
untouched — in particular the thread page is not rendered and the view
count is not updated. -/
theorem post_view_redirects_non_toplevel
    (req : Request) (post : Post) (c : Collaborators) (db : DB)
    (h : post.is_toplevel = false) :
    post_view req post c db = (PostViewResult.redirect post.absolute_url, db) := by
  simp [post_view, h]

/-- Concrete instance of `post_view_redirects_non_toplevel`: requesting the
reply post 2 redirects to `/p/1/#2` and leaves the database as it was. -/
theorem post_view_redirects_non_toplevel_witness :
    post_view sampleReq sampleReply sampleCollab sampleDB =
      (PostViewResult.redirect sampleReply.absolute_url, sampleDB) :=
  post_view_redirects_non_toplevel sampleReq sampleReply sampleCollab sampleDB rfl

/-- C7: `search_results` redirects to the home route, performing no search
and no pagination, exactly when the `q` parameter is absent or empty; for
a non-empty `q` it renders the results page for the search over `q` (the
paginated output of `search.plain(q)`), having performed the search and the
pagination. -/
theorem search_results_empty_query_redirects
    (req : Request) (searchPlain : String → List Post)
    (paginate : List Post → List Post) (db : DB) :
    (req.q = "" →
      search_results req searchPlain paginate db =
        ((Response.redirect "home", []), db)) ∧
    (req.q ≠ "" →
      search_results req searchPlain paginate db =
        ((Response.rendered "post_search_results.html" (paginate (searchPlain req.q)),
          [SearchOp.searched req.q, SearchOp.paginated]), db)) := by
  constructor
  · intro h
    simp [search_results, h]
  · intro h
    simp [search_results, h]

/-- Concrete instance of `search_results_empty_query_redirects`: the empty
query redirects home with no recorded operation; the query `"rna"` renders
the searched-and-paginated page. -/
theorem search_results_empty_query_redirects_witness :
    search_results sampleReq (fun _ => []) (fun l => l) sampleDB =
      ((Response.redirect "home", []), sampleDB) ∧
    search_results sampleSearchReq (fun _ => [onlyTagA]) (fun l => l) sampleDB =
      ((Response.rendered "post_search_results.html" [onlyTagA],
        [SearchOp.searched "rna", SearchOp.paginated]), sampleDB) :=
  ⟨(search_results_empty_query_redirects sampleReq (fun _ => []) (fun l => l)
      sampleDB).1 rfl,
   (search_results_empty_query_redirects sampleSearchReq (fun _ => [onlyTagA])
      (fun l => l) sampleDB).2 (by decide)⟩

end Biostar

namespace Biostar

/-- Introduction rule for the allowed write footprint. -/
theorem onlyAllowedWrites_mk (db db' : DB)
    (hv : db'.votes = db.votes) (ht : db'.tag_rows = db.tag_rows)
    (hu : db'.user_rows = db.user_rows) (hg : db'.group_rows = db.group_rows)
    (hpv : db'.post_views = db.post_views ∨
      ∃ r, db'.post_views = db.post_views ++ [r])
    (hposts : ∃ newComments : List Post,
      (∀ cmt ∈ newComments, cmt.type = PostType.COMMENT) ∧
      ((db'.posts = db.posts ++ newComments) ∨
        ∃ pid, db'.posts = atomicInc pid db.posts ++ newComments)) :
    onlyAllowedWrites db db' :=
  ⟨hv, ht, hu, hg, hpv, hposts⟩

/-- Doing nothing is inside the allowed write footprint. -/
theorem onlyAllowedWrites_refl (db : DB) : onlyAllowedWrites db db :=
  onlyAllowedWrites_mk db db rfl rfl rfl rfl (Or.inl rfl)
    ⟨[], fun cmt hc => absurd hc (List.not_mem_nil cmt), Or.inl (by simp)⟩

/-- Every state the `try` body of `update_post_views` can reach — on any
failure pattern, including partial ones — stays inside the allowed write
footprint: at most one appended `PostView` row and at most one atomic
increment, nothing else. -/
theorem recordPageView_allowed (f : DbFailure) (db : DB) (ip : String)
    (pid now since : Nat) :
    onlyAllowedWrites db (recordPageView f db ip pid now since).1 := by
  unfold recordPageView
  cases f.filterRaises with
  | some e => exact onlyAllowedWrites_refl db
  | none =>
      cases hε : (recentViews db.post_views ip pid since).isEmpty with
      | false =>
          simp only [hε, Bool.false_eq_true, if_false]
          exact onlyAllowedWrites_refl db
      | true =>
          simp only [hε, if_true]
          cases f.createRaises with
          | some e => exact onlyAllowedWrites_refl db
          | none =>
              cases f.updateRaises with
              | some e =>
                  exact onlyAllowedWrites_mk _ _ rfl rfl rfl rfl
                    (Or.inr ⟨⟨ip, pid, now⟩, rfl⟩)
                    ⟨[], fun cmt hc => absurd hc (List.not_mem_nil cmt),
                      Or.inl (by simp)⟩
              | none =>
                  exact onlyAllowedWrites_mk _ _ rfl rfl rfl rfl
                    (Or.inr ⟨⟨ip, pid, now⟩, rfl⟩)
                    ⟨[], fun cmt hc => absurd hc (List.not_mem_nil cmt),
                      Or.inr ⟨pid, by simp⟩⟩

/-- A successful `update_post_views` stays inside the allowed write
footprint. -/
theorem updatePostViewsOk_allowed (db : DB) (ip : String) (pid now since : Nat) :
    onlyAllowedWrites db (updatePostViewsOk db ip pid now since) :=
  recordPageView_allowed noDbFailure db ip pid now since

end Biostar

namespace Biostar

/-- The database `post_view` leaves behind on the toplevel path: the state
after the view update, plus — for an authenticated request — one appended
COMMENT row created by the test block. -/
theorem post_view_db_shape (req : Request) (post : Post) (c : Collaborators) (db : DB)
    (ht : post.is_toplevel = true) :
    (post_view req post c db).2 =
      (if req.authenticated then
        { updatePostViewsOk db c.remote_ip post.id c.now c.since with
            posts := (updatePostViewsOk db c.remote_ip post.id c.now c.since).posts ++
              [{ id := c.new_comment_id,
                 parent_id := ((c.get_thread post ++ [post]).getD c.comment_parent_index post).id,
                 type := PostType.COMMENT, title := "", view_count := 0,
                 is_toplevel := false, tags := [], absolute_url := "",
                 content := c.comment_text, author_id := c.comment_author }] }
      else updatePostViewsOk db c.remote_ip post.id c.now c.since) := by
  unfold post_view
  rw [if_neg (by simp [ht])]

/-- `post_view` stays inside the allowed write footprint: at most one
appended `PostView` row, at most one atomic increment, and at most one
appended COMMENT row. -/
theorem post_view_allowed (req : Request) (post : Post) (c : Collaborators) (db : DB) :
    onlyAllowedWrites db (post_view req post c db).2 := by
  cases htl : post.is_toplevel with
  | false =>
      unfold post_view
      rw [if_pos htl]
      exact onlyAllowedWrites_refl db
  | true =>
      rw [post_view_db_shape req post c db htl]
      by_cases hauth : req.authenticated = true
      case neg =>
          rw [if_neg hauth]
          exact updatePostViewsOk_allowed db c.remote_ip post.id c.now c.since
      case pos =>
          rw [if_pos hauth]
          cases hε : (recentViews db.post_views c.remote_ip post.id c.since).isEmpty with
          | true =>
              rw [updatePostViewsOk_created db c.remote_ip post.id c.now c.since hε]
              refine onlyAllowedWrites_mk _ _ rfl rfl rfl rfl
                (Or.inr ⟨⟨c.remote_ip, post.id, c.now⟩, rfl⟩)
                ⟨_, ?_, Or.inr ⟨post.id, rfl⟩⟩
              intro cmt hc
              rcases List.mem_singleton.mp hc with rfl
              rfl
          | false =>
              rw [updatePostViewsOk_not_created db c.remote_ip post.id c.now c.since hε]
              refine onlyAllowedWrites_mk _ _ rfl rfl rfl rfl (Or.inl rfl)
                ⟨_, ?_, Or.inl rfl⟩
              intro cmt hc
              rcases List.mem_singleton.mp hc with rfl
              rfl

end Biostar

namespace Biostar

/-- C5: the only database writes any handler of the file performs are
creating a `PostView` row, incrementing a post's `view_count` (the atomic
increment), and creating a COMMENT post; `tag_list`, `tag_filter`,
`posts_by_user`, `upvoted_posts`, `my_bookmarks`, `post_list`, `group_list`
and `search_results` return the database unchanged, `update_post_views`
and `post_view` stay inside the allowed footprint, and the increment itself
changes no column other than `view_count` — votes, tags, users, groups and
all other post fields are left as they were. -/
theorem handlers_only_allowed_writes :
    (∀ (req : Request) (icontains : String → String → Bool)
        (orderByName paginateTags : List String → List String) (db : DB),
      (tag_list req icontains orderByName paginateTags db).2 = db) ∧
    (∀ (name : String) (getToplevel : DB → List Post)
        (paginate : List Post → List Post) (db : DB),
      (tag_filter name getToplevel paginate db).2 = db) ∧
    (∀ (getAllPosts getToplevel : DB → List Post)
        (paginate : List Post → List Post) (db : DB),
      (posts_by_user getAllPosts getToplevel paginate db).2 = db) ∧
    (∀ (getPostsByVote getToplevel : DB → List Post)
        (paginate : List Post → List Post) (db : DB),
      (upvoted_posts getPostsByVote getToplevel paginate db).2 = db) ∧
    (∀ (getMyBookmarks getToplevel : DB → List Post)
        (paginate : List Post → List Post) (db : DB),
      (my_bookmarks getMyBookmarks getToplevel paginate db).2 = db) ∧
    (∀ (getToplevel : DB → List Post) (paginate : List Post → List Post)
        (posts : Option (List Post)) (db : DB),
      (post_list getToplevel paginate posts db).2 = db) ∧
    (∀ db : DB, (group_list db).2 = db) ∧
    (∀ (req : Request) (searchPlain : String → List Post)
        (paginate : List Post → List Post) (db : DB),
      (search_results req searchPlain paginate db).2 = db) ∧
    (∀ (f : DbFailure) (db : DB) (ip : String) (pid now since : Nat)
        (r : DB × List String),
      update_post_views f db ip pid now since = Except.ok r →
      onlyAllowedWrites db r.1) ∧
    (∀ (req : Request) (post : Post) (c : Collaborators) (db : DB),
      onlyAllowedWrites db (post_view req post c db).2) ∧
    (∀ (pid : Nat) (posts : List Post),
      (atomicInc pid posts).map clearViews = posts.map clearViews) := by
  refine ⟨?_, ?_, ?_, ?_, ?_, ?_, ?_, ?_, ?_, ?_, ?_⟩
  · intro req icontains orderByName paginateTags db
    rfl
  · intro name getToplevel paginate db
    rfl
  · intro getAllPosts getToplevel paginate db
    rfl
  · intro getPostsByVote getToplevel paginate db
    rfl
  · intro getMyBookmarks getToplevel paginate db
    rfl
  · intro getToplevel paginate posts db
    rfl
  · intro db
    rfl
  · intro req searchPlain paginate db
    unfold search_results
    split
    · rfl
    · rfl
  · intro f db ip pid now since r heq
    have hr : r.1 = (recordPageView f db ip pid now since).1 := by
      unfold update_post_views at heq
      rcases hrec : recordPageView f db ip pid now since with ⟨dbx, exc⟩
      rw [hrec] at heq
      cases exc with
      | none =>
          have heq2 : Except.ok (dbx, ([] : List String)) = Except.ok r := heq
          cases heq2
          rfl
      | some e =>
          have heq2 : Except.ok (dbx, [e]) = Except.ok r := heq
          cases heq2
          rfl
    rw [hr]
    exact recordPageView_allowed f db ip pid now since
  · intro req post c db
    exact post_view_allowed req post c db
  · intro pid posts
    exact atomicInc_map_clearViews pid posts

/-- Concrete instance of `handlers_only_allowed_writes`: `group_list`
leaves the sample database untouched, and a full authenticated `post_view`
on it stays inside the allowed write footprint. -/
theorem handlers_only_allowed_writes_witness :
    (group_list sampleDB).2 = sampleDB ∧
    onlyAllowedWrites sampleDB (post_view sampleReq onlyTagA sampleCollab sampleDB).2 :=
  ⟨handlers_only_allowed_writes.2.2.2.2.2.2.1 sampleDB,
   handlers_only_allowed_writes.2.2.2.2.2.2.2.2.2.1 sampleReq onlyTagA sampleCollab
     sampleDB⟩

end Biostar
